import Mathlib

/-!
Verification of the tabular analysis engine (`src/analyzer.py`, class
`DataAnalyzer`) of the data-analyzer repository, against its
natural-language specification.

The engine is shallowly embedded: a pandas `DataFrame` with the fixed
transaction schema {date, category, amount, customer_id} becomes `Table`
(a list of `Row`s plus a flag recording whether the `date` column has
datetime dtype), `amount`s become exact rationals, timestamps become
calendar dates (compared through their civil day number, as pandas
compares instants).  Each `DataAnalyzer` method becomes a function
`Table → args → Table × Except AErr result`: the first component is the
state of `self.data` after the call (the methods can mutate it in place),
the second is the returned value or the raised exception.
-/

namespace DataAnalyzer

/-- A calendar date at day granularity (`date` cell of one record). -/
structure Date where
  year : Int
  month : Int
  day : Int
deriving DecidableEq, Repr

/-- Civil day number of a date (days since 1970-01-01), by the standard
days-from-civil computation.  Pandas timestamps at day granularity are
ordered and subtracted exactly as these day numbers are. -/
def dayNumber (d : Date) : Int :=
  let y : Int := if d.month ≤ 2 then d.year - 1 else d.year
  let era : Int := Int.fdiv y 400
  let yoe : Int := y - era * 400
  let mp : Int := if 2 < d.month then d.month - 3 else d.month + 9
  let doy : Int := (153 * mp + 2) / 5 + d.day - 1
  let doe : Int := yoe * 365 + yoe / 4 - yoe / 100 + doy
  era * 146097 + doe - 719468

/-- One transaction record (§3 of the spec): date, category label,
signed amount, customer identifier. -/
structure Row where
  date : Date
  category : String
  amount : ℚ
  customer_id : String
deriving DecidableEq, Repr

/-- The in-memory table `self.data`: its rows, plus whether the `date`
column currently has datetime64 dtype (`pd.api.types.is_datetime64_dtype`);
the analyzer accepts tables whose dates are still raw strings and coerces
them in place. -/
structure Table where
  rows : List Row
  dateIsDatetime : Bool
deriving DecidableEq, Repr

/-- The column labels of the fixed schema, `self.data.columns`. -/
def tableColumns : List String := ["date", "category", "amount", "customer_id"]

/-- Errors the analyzer methods can raise.  `emptyData` is the
`ValueError("No data available for analysis.")` of `_validate_data`
(the spec's `EmptyDataError`); `schemaError` is the
`ValueError("Column '...' not found in data.")` (the spec's `SchemaError`);
`zeroDivision` is a Python `ZeroDivisionError`; `valueError` is the
`ValueError` pandas raises when a column is assigned a list of
mismatched length. -/
inductive AErr where
  | emptyData : AErr
  | schemaError : String → AErr
  | zeroDivision : AErr
  | valueError : AErr
deriving DecidableEq, Repr

/-- A grouping key, the value drawn from one column of a row: pandas
groups the `date` column by timestamp (here: day number), `amount` by its
numeric value, and the label columns by their strings. -/
inductive GKey where
  | kd : Int → GKey
  | kn : ℚ → GKey
  | ks : String → GKey
deriving DecidableEq, Repr

/-- Strict order on characters by code point. -/
def charLtB (a b : Char) : Bool := decide (a.toNat < b.toNat)

/-- Lexicographic order on character lists by code point — the order in
which Python (and hence pandas) compares strings. -/
def lexLeB : List Char → List Char → Bool
  | [], _ => true
  | _ :: _, [] => false
  | a :: as, b :: bs =>
    if charLtB a b then true else if charLtB b a then false else lexLeB as bs

/-- Lexicographic string order by code point. -/
def strLeB (a b : String) : Bool := lexLeB a.data b.data

/-- Total order on grouping keys used by pandas `groupby(sort=True)`
(within one table all keys of a grouping come from one column, hence
share a constructor; the cross-constructor cases just make the order
total). -/
def GKey.leB : GKey → GKey → Bool
  | .kd a, .kd b => decide (a ≤ b)
  | .kd _, .kn _ => true
  | .kd _, .ks _ => true
  | .kn _, .kd _ => false
  | .kn a, .kn b => decide (a ≤ b)
  | .kn _, .ks _ => true
  | .ks _, .kd _ => false
  | .ks _, .kn _ => false
  | .ks a, .ks b => strLeB a b

/-- The key a row contributes when grouping by the named column. -/
def colKey (c : String) (r : Row) : GKey :=
  if c = "date" then .kd (dayNumber r.date)
  else if c = "category" then .ks r.category
  else if c = "amount" then .kn r.amount
  else .ks r.customer_id

/-- The distinct elements of a list in first-seen order, skipping those
already in `seen` (helper for the distinct grouping keys of a column). -/
def firstSeen [DecidableEq κ] : List κ → List κ → List κ
  | _, [] => []
  | seen, k :: ks => if k ∈ seen then firstSeen seen ks else k :: firstSeen (k :: seen) ks

/-- The distinct elements of a list, in first-seen order. -/
def uniqueKeys [DecidableEq κ] (l : List κ) : List κ := firstSeen [] l

/-- Sort by a boolean linear order (the grouping keys of a pandas
`groupby(sort=True)` come out sorted ascending). -/
def sortByB (le : κ → κ → Bool) (l : List κ) : List κ :=
  List.insertionSort (fun a b => le a b = true) l

/-- Sum of the `amount` cells of the rows whose key under `f` is `k`. -/
def groupAmountSum (f : Row → GKey) (t : Table) (k : GKey) : ℚ :=
  ((t.rows.filter (fun r => f r = k)).map Row.amount).sum

/-- The grouped sums `t.groupby(col)['amount'].sum()`: one `(key, sum)`
pair per distinct key, keys ascending. -/
def groupedSums (f : Row → GKey) (t : Table) : List (GKey × ℚ) :=
  (sortByB GKey.leB (uniqueKeys (t.rows.map f))).map (fun k => (k, groupAmountSum f t k))

/-- Model of pandas `sort_values(ascending=False)`: the reverse of a
stable ascending sort on the value (pandas computes an ascending argsort
and reverses it; numpy's argsort keeps tied elements in input order on
the small inputs at issue, so the reverse puts ties in reversed input
order). -/
def sortValuesDesc (f : α → ℚ) (l : List α) : List α :=
  (List.insertionSort (fun a b => f a ≤ f b) l).reverse

/-- Python truthiness of the optional `groupby` argument: `if groupby:`
is false for `None` and for the empty string. -/
def optTruthy : Option String → Bool
  | none => false
  | some s => !(s == "")

/-- A statistic value: an exact rational, the square root of an exact
nonnegative rational (standard deviations), or NaN. -/
inductive StatVal where
  | q : ℚ → StatVal
  | sqrtQ : ℚ → StatVal
  | nan : StatVal
deriving DecidableEq, Repr

/-- Mean of a list of rationals (`len = 0` never reached by callers). -/
def meanQ (xs : List ℚ) : ℚ := xs.sum / xs.length

/-- Minimum of a list of rationals, `pandas.Series.min` (callers pass
nonempty lists). -/
def minQ : List ℚ → ℚ
  | [] => 0
  | x :: xs => xs.foldl min x

/-- Maximum of a list of rationals, `pandas.Series.max`. -/
def maxQ : List ℚ → ℚ
  | [] => 0
  | x :: xs => xs.foldl max x

/-- Ascending sort of plain rationals. -/
def sortQ (xs : List ℚ) : List ℚ := List.insertionSort (fun a b => a ≤ b) xs

/-- Linear-interpolation quantile of an ascending-sorted list, pandas'
default interpolation: at position `p * (n-1)` between the two adjacent
order statistics.  `p = 1/2` is the pandas median. -/
def quantileQ (p : ℚ) (sorted : List ℚ) : ℚ :=
  let pos : ℚ := p * ((sorted.length : ℚ) - 1)
  let i : ℕ := pos.floor.toNat
  let lo := sorted.getD i 0
  let hi := sorted.getD (i + 1) lo
  lo + (pos - (i : ℚ)) * (hi - lo)

/-- Unbiased (ddof=1) sample variance; its square root is the pandas
standard deviation. -/
def sampleVar (xs : List ℚ) : ℚ :=
  (xs.map (fun x => (x - meanQ xs) ^ 2)).sum / ((xs.length : ℚ) - 1)

/-- Pandas sample standard deviation as a `StatVal`: NaN on fewer than
two observations, otherwise the square root of the unbiased variance. -/
def stdStat (xs : List ℚ) : StatVal :=
  if xs.length ≤ 1 then .nan else .sqrtQ (sampleVar xs)

/-- `pandas.Series.describe()` on a numeric series: the eight statistics
count, mean, std, min, 25%, 50%, 75%, max, in that order. -/
def describeStats (xs : List ℚ) : List (String × StatVal) :=
  let s := sortQ xs
  [("count", .q (xs.length : ℚ)),
   ("mean", .q (meanQ xs)),
   ("std", stdStat xs),
   ("min", .q (minQ xs)),
   ("25%", .q (quantileQ (1/4) s)),
   ("50%", .q (quantileQ (1/2) s)),
   ("75%", .q (quantileQ (3/4) s)),
   ("max", .q (maxQ xs))]

/-- One row of `grouped['amount'].agg(['count','mean','median','std','min','max','sum'])`. -/
def aggStats (xs : List ℚ) : List (String × StatVal) :=
  [("count", .q (xs.length : ℚ)),
   ("mean", .q (meanQ xs)),
   ("median", .q (quantileQ (1/2) (sortQ xs))),
   ("std", stdStat xs),
   ("min", .q (minQ xs)),
   ("max", .q (maxQ xs)),
   ("sum", .q xs.sum)]

/-- Result of `get_summary_statistics`: either the whole-column
`describe()` series or the per-group aggregation table (group keys
ascending). -/
inductive SummaryResult where
  | describe : List (String × StatVal) → SummaryResult
  | grouped : List (GKey × List (String × StatVal)) → SummaryResult
deriving DecidableEq, Repr

/-- `DataAnalyzer.get_summary_statistics(groupby=None)` (analyzer.py
lines 40-61): validate, then either the grouped aggregation (after the
column-existence check) or `self.data['amount'].describe()`.  Returns
the post-call `self.data` together with the outcome. -/
def get_summary_statistics (t : Table) (groupby : Option String) :
    Table × Except AErr SummaryResult :=
  if t.rows = [] then (t, .error .emptyData)
  else if optTruthy groupby then
    let g := groupby.getD ""
    if g ∉ tableColumns then (t, .error (.schemaError g))
    else
      (t, .ok (.grouped ((sortByB GKey.leB (uniqueKeys (t.rows.map (colKey g)))).map
        (fun k => (k, aggStats ((t.rows.filter (fun r => colKey g r = k)).map Row.amount))))))
  else (t, .ok (.describe (describeStats (t.rows.map Row.amount))))

/-- Resampling frequency token, the closed set `{'D','W','M','Q','Y'}`
of §4.2. -/
inductive Freq where
  | D | W | M | Q | Y
deriving DecidableEq, Repr

/-- The bucket a date falls into at a given frequency, identified by an
integer that increases by 1 from each period to the next: day number for
'D', week number for 'W' (pandas default `W-SUN` bins, Monday through
Sunday), `12*year + month` for 'M', quarter number for 'Q', year for 'Y'. -/
def bucketId (f : Freq) (d : Date) : Int :=
  match f with
  | .D => dayNumber d
  | .W => Int.fdiv (dayNumber d + 3) 7
  | .M => d.year * 12 + (d.month - 1)
  | .Q => d.year * 4 + Int.fdiv (d.month - 1) 3
  | .Y => d.year

/-- Model of `series.resample(freq).sum()` on a nonempty datetime-indexed
series: pandas generates one bin for every period from the earliest
record's period to the latest record's period inclusive, summing the
amounts inside each bin (the sum of an empty bin is 0 — empty bins are
materialized, not skipped). -/
def resampleRange (f : Freq) (rows : List Row) (lo hi : ℤ) : List (Int × ℚ) :=
  (List.range (hi + 1 - lo).toNat).map
    (fun i : ℕ => (lo + (i : ℤ),
      ((rows.filter (fun x => bucketId f x.date = lo + (i : ℤ))).map Row.amount).sum))

/-- Model of `series.resample(freq).sum()` on a nonempty datetime-indexed
series (see `resampleRange`): the bins run from the earliest record's
period to the latest record's period inclusive. -/
def resampleSumSeries (f : Freq) (rows : List Row) : List (Int × ℚ) :=
  match rows with
  | [] => []
  | r :: rest =>
    resampleRange f (r :: rest)
      ((rest.map (fun x => bucketId f x.date)).foldl min (bucketId f r.date))
      ((rest.map (fun x => bucketId f x.date)).foldl max (bucketId f r.date))

/-- Result of `analyze_time_series`: a single resampled series, or the
`pd.concat(groups, axis=1)` table (one column per group, outer-joined on
the bucket axis with NaN where a group has no bin), or the empty
`pd.DataFrame()` of the no-groups branch. -/
inductive TSResult where
  | series : List (Int × ℚ) → TSResult
  | table : List GKey → List (Int × List (Option ℚ)) → TSResult
  | emptyDF : TSResult
deriving DecidableEq, Repr

/-- `pd.concat(groups, axis=1)`: the union of the groups' bucket axes,
sorted ascending, with `none` (NaN) where a group has no such bucket. -/
def concatAxis1 (groups : List (GKey × List (Int × ℚ))) : List (Int × List (Option ℚ)) :=
  let ids := sortByB (fun a b : Int => decide (a ≤ b)) (uniqueKeys (groups.flatMap (fun g => g.2.map Prod.fst)))
  ids.map (fun b => (b, groups.map (fun g => g.2.lookup b)))

/-- `DataAnalyzer.analyze_time_series(freq, groupby=None)` (analyzer.py
lines 63-103): validate; coerce the `date` column to datetime **in place**
(`self.data['date'] = pd.to_datetime(self.data['date'])`) when its dtype
is not datetime64 — the one point where a method mutates `self.data`;
then resample, either per group of `groupby` or over the whole series. -/
def analyze_time_series (t : Table) (f : Freq) (groupby : Option String) :
    Table × Except AErr TSResult :=
  if t.rows = [] then (t, .error .emptyData)
  else
    let t' := if t.dateIsDatetime then t else { t with dateIsDatetime := true }
    if optTruthy groupby then
      let g := groupby.getD ""
      if g ∉ tableColumns then (t', .error (.schemaError g))
      else
        let keys := sortByB GKey.leB (uniqueKeys (t'.rows.map (colKey g)))
        let groups := keys.map
          (fun k => (k, resampleSumSeries f (t'.rows.filter (fun r => colKey g r = k))))
        if groups = [] then (t', .ok .emptyDF)
        else (t', .ok (.table keys (concatAxis1 groups)))
    else (t', .ok (.series (resampleSumSeries f t'.rows)))

/-- `DataAnalyzer.get_spending_distribution(by='category')` (analyzer.py
lines 105-120): validate, check the column exists, then
`groupby(by)['amount'].sum().sort_values(ascending=False)`. -/
def get_spending_distribution (t : Table) (byCol : String) :
    Table × Except AErr (List (GKey × ℚ)) :=
  if t.rows = [] then (t, .error .emptyData)
  else if byCol ∉ tableColumns then (t, .error (.schemaError byCol))
  else (t, .ok (sortValuesDesc Prod.snd (groupedSums (colKey byCol) t)))

/-- Python `list.head(n)` on a pandas series: the first `n` entries for
`n ≥ 0`, and all but the last `|n|` entries for negative `n`. -/
def headInt (n : Int) (l : List α) : List α :=
  if 0 ≤ n then l.take n.toNat else l.take (l.length - n.natAbs)

/-- `DataAnalyzer.get_top_spending_categories(n=5)` (analyzer.py lines
122-134): validate, then `self.get_spending_distribution(by='category').head(n)`. -/
def get_top_spending_categories (t : Table) (n : Int) :
    Table × Except AErr (List (GKey × ℚ)) :=
  if t.rows = [] then (t, .error .emptyData)
  else
    match (get_spending_distribution t "category").2 with
    | .ok s => (t, .ok (headInt n s))
    | .error e => (t, .error e)

/-- Sum of the amounts of a customer's rows (`groupby('customer_id')['amount'].sum()`
for one customer). -/
def customerTotal (t : Table) (c : String) : ℚ :=
  ((t.rows.filter (fun r => r.customer_id = c)).map Row.amount).sum

/-- The distinct customer identifiers of a table (ascending, as pandas
`groupby` emits them). -/
def customerKeys (t : Table) : List String :=
  sortByB strLeB (uniqueKeys (t.rows.map Row.customer_id))

/-- `DataAnalyzer.segment_customers(n_segments=3)` (analyzer.py lines
136-170): validate; total spending per customer; sort descending;
`segment_size = len // n_segments` (a `ZeroDivisionError` when
`n_segments == 0`); bump a zero band size to 1 and shrink `n_segments`
to the customer count; build the label list band by band
(`range(start_idx, end_idx)` appends `end - start` copies of the label,
the last band running to the end of the list); assign it as a column
(pandas raises `ValueError` if the list length mismatches — it never
does for `n_segments ≥ 1`). -/
def segment_customers (t : Table) (n_segments : Int) :
    Table × Except AErr (List (String × ℚ × String)) :=
  if t.rows = [] then (t, .error .emptyData)
  else
    let customer_spending := (customerKeys t).map (fun c => (c, customerTotal t c))
    let sorted := sortValuesDesc Prod.snd customer_spending
    if n_segments = 0 then (t, .error .zeroDivision)
    else
      let size0 : Int := Int.fdiv (sorted.length : Int) n_segments
      let segSize : Int := if size0 = 0 then 1 else size0
      let nSeg : Int := if size0 = 0 then (sorted.length : Int) else n_segments
      let segments : List String := (List.range nSeg.toNat).flatMap (fun i =>
        let start : Int := (i : Int) * segSize
        let stop : Int := if (i : Int) < nSeg - 1 then ((i : Int) + 1) * segSize
                          else (sorted.length : Int)
        List.replicate (stop - start).toNat ("Segment " ++ toString (i + 1)))
      if segments.length ≠ sorted.length then (t, .error .valueError)
      else (t, .ok (List.zipWith (fun p lab => (p.1, p.2, lab)) sorted segments))

/-- The per-customer metrics row of `calculate_customer_metrics`:
`amount` aggregated by count/sum/mean/median/std, `date` by min/max
(as day numbers), `days_active` their difference in whole days, and
`frequency = count / days_active` when `days_active > 0`, else `count`. -/
structure CustMetrics where
  amount_count : ℕ
  amount_sum : ℚ
  amount_mean : ℚ
  amount_median : ℚ
  amount_std : StatVal
  date_min : Int
  date_max : Int
  days_active : Int
  frequency : ℚ
deriving DecidableEq, Repr

/-- `DataAnalyzer.calculate_customer_metrics()` (analyzer.py lines
172-201): validate, then the per-customer aggregation table (customers
ascending). -/
def calculate_customer_metrics (t : Table) :
    Table × Except AErr (List (String × CustMetrics)) :=
  if t.rows = [] then (t, .error .emptyData)
  else
    (t, .ok ((customerKeys t).map (fun c =>
      let rs := t.rows.filter (fun r => r.customer_id = c)
      let xs := rs.map Row.amount
      let ds := rs.map (fun r => dayNumber r.date)
      let dmin := match ds with | [] => 0 | d :: rest => rest.foldl min d
      let dmax := match ds with | [] => 0 | d :: rest => rest.foldl max d
      let days := dmax - dmin
      (c, { amount_count := xs.length
            amount_sum := xs.sum
            amount_mean := meanQ xs
            amount_median := quantileQ (1/2) (sortQ xs)
            amount_std := stdStat xs
            date_min := dmin
            date_max := dmax
            days_active := days
            frequency := if 0 < days then (xs.length : ℚ) / (days : ℚ) else (xs.length : ℚ) }))))

/-- The distinct categories of a table, ascending (the columns of the
`pivot_table` of `get_category_correlation`). -/
def categoryKeys (t : Table) : List String :=
  sortByB strLeB (uniqueKeys (t.rows.map Row.category))

/-- One cell of the customer × category pivot: the summed amount of the
(customer, category) pair, 0 when the pair has no rows (`fill_value=0`). -/
def pivotCell (t : Table) (cust cat : String) : ℚ :=
  ((t.rows.filter (fun r => r.customer_id = cust ∧ r.category = cat)).map Row.amount).sum

/-- Mean over customers of one pivot column. -/
def pivotColMean (t : Table) (cat : String) : ℚ :=
  meanQ ((customerKeys t).map (fun cu => pivotCell t cu cat))

/-- Sum over customers of the products of deviations of two pivot
columns — the numerator (up to the common `1/(n-1)` factor, which the
correlation ratio cancels) of the Pearson covariance `pandas.DataFrame.corr`
computes. -/
def ssd (t : Table) (c1 c2 : String) : ℚ :=
  ((customerKeys t).map (fun cu =>
    (pivotCell t cu c1 - pivotColMean t c1) * (pivotCell t cu c2 - pivotColMean t c2))).sum

/-- Sign of a rational, as an integer. -/
def signQ (x : ℚ) : Int := if 0 < x then 1 else if x < 0 then -1 else 0

/-- One entry of the correlation matrix, exactly.  The Pearson
coefficient `r = cov / (σ₁ σ₂) = s·√v` with `s = sign cov` and
`v = cov² / (ssd₁ · ssd₂)`; the pair `(s, v)` represents `s·√v`
exactly, and `none` is the NaN pandas produces when either category has
zero variance (including the single-customer pivot, whose ddof=1
divisor is zero). -/
def corrEntry (t : Table) (c1 c2 : String) : Option (Int × ℚ) :=
  if ssd t c1 c1 = 0 ∨ ssd t c2 c2 = 0 then none
  else some (signQ (ssd t c1 c2), (ssd t c1 c2) ^ 2 / (ssd t c1 c1 * ssd t c2 c2))

/-- `DataAnalyzer.get_category_correlation()` (analyzer.py lines
203-222): validate, pivot customers × categories with zero fill, and
return `pivot.corr()` — the category × category matrix of Pearson
coefficients. -/
def get_category_correlation (t : Table) :
    Table × Except AErr (List (String × List (String × Option (Int × ℚ)))) :=
  if t.rows = [] then (t, .error .emptyData)
  else
    (t, .ok ((categoryKeys t).map (fun c1 =>
      (c1, (categoryKeys t).map (fun c2 => (c2, corrEntry t c1 c2))))))

/-- The number of segment bands §4.4 of the spec prescribes: `nSegments`,
reduced to the distinct-customer count when the band size would be 0. -/
def specBandCount (N : ℕ) (n : ℤ) : ℕ := if (N : ℤ) < n then N else n.toNat

/-- The common band size §4.4 of the spec prescribes:
`floor(numCustomers / nSegments)`, bumped to 1 in the reduced case. -/
def specBandSize (N : ℕ) (n : ℤ) : ℕ := if (N : ℤ) < n then 1 else N / n.toNat

/-- The label column §4.4 of the spec prescribes: `bandCount` contiguous
bands "Segment 1", "Segment 2", …, every band of size `bandSize` except
the last, which absorbs the remainder
(`numCustomers - (nSegments-1)*bandSize`). -/
def specBandLabels (N : ℕ) (n : ℤ) : List String :=
  (List.range (specBandCount N n)).flatMap (fun i =>
    List.replicate
      (if i + 1 < specBandCount N n then specBandSize N n
       else N - (specBandCount N n - 1) * specBandSize N n)
      ("Segment " ++ toString (i + 1)))

/-- A table with no rows. -/
def exEmpty : Table := { rows := [], dateIsDatetime := true }

/-- Three rows whose categories in first-seen order are "b", "a", "c",
all with the same summed amount — a tie among all three categories. -/
def exTie : Table :=
  { rows := [⟨⟨2023, 1, 1⟩, "b", 10, "C1"⟩,
             ⟨⟨2023, 1, 2⟩, "a", 10, "C2"⟩,
             ⟨⟨2023, 1, 3⟩, "c", 10, "C3"⟩],
    dateIsDatetime := true }

/-- Two rows dated January and March 2023 — February holds no record —
whose `date` column does not yet have datetime dtype. -/
def exGapRaw : Table :=
  { rows := [⟨⟨2023, 1, 15⟩, "x", 5, "C1"⟩,
             ⟨⟨2023, 3, 10⟩, "y", 7, "C2"⟩],
    dateIsDatetime := false }

/-- Three rows with three categories of distinct summed amounts
30 > 20 > 10. -/
def exTop : Table :=
  { rows := [⟨⟨2023, 1, 1⟩, "e", 30, "C1"⟩,
             ⟨⟨2023, 1, 2⟩, "g", 20, "C2"⟩,
             ⟨⟨2023, 1, 3⟩, "c", 10, "C3"⟩],
    dateIsDatetime := true }

/-! ### Helper lemmas -/

theorem foldl_min_le_init {α} [LinearOrder α] : ∀ (l : List α) (b : α), List.foldl min b l ≤ b := by
  intro l
  induction l with
  | nil => intro b; exact le_refl b
  | cons c l ih => intro b; exact le_trans (ih (min b c)) (min_le_left b c)

theorem foldl_min_le_mem {α} [LinearOrder α] :
    ∀ (l : List α) (b x : α), x ∈ l → List.foldl min b l ≤ x := by
  intro l
  induction l with
  | nil => intro b x hx; cases hx
  | cons c l ih =>
    intro b x hx
    rcases List.mem_cons.mp hx with rfl | hx'
    · exact le_trans (foldl_min_le_init l (min b x)) (min_le_right b x)
    · exact ih (min b c) x hx'

theorem le_foldl_max_init {α} [LinearOrder α] : ∀ (l : List α) (b : α), b ≤ List.foldl max b l := by
  intro l
  induction l with
  | nil => intro b; exact le_refl b
  | cons c l ih => intro b; exact le_trans (le_max_left b c) (ih (max b c))

theorem le_foldl_max_mem {α} [LinearOrder α] :
    ∀ (l : List α) (b x : α), x ∈ l → x ≤ List.foldl max b l := by
  intro l
  induction l with
  | nil => intro b x hx; cases hx
  | cons c l ih =>
    intro b x hx
    rcases List.mem_cons.mp hx with rfl | hx'
    · exact le_trans (le_max_right b x) (le_foldl_max_init l (max b x))
    · exact ih (max b c) x hx'

/-! ### C6: empty-table precondition -/

/-- C6: a table with zero rows makes every engine operation fail with
the empty-data error (`ValueError("No data available for analysis.")`,
the spec's `EmptyDataError`), the `_validate_data` check running before
any computation, so the input table is returned unchanged and no partial
result is produced. -/
theorem c6_empty_table_rejected (t : Table) (h : t.rows = [])
    (g : Option String) (f : Freq) (b : String) (n k : ℤ) :
    get_summary_statistics t g = (t, .error .emptyData) ∧
    analyze_time_series t f g = (t, .error .emptyData) ∧
    get_spending_distribution t b = (t, .error .emptyData) ∧
    get_top_spending_categories t n = (t, .error .emptyData) ∧
    segment_customers t k = (t, .error .emptyData) ∧
    calculate_customer_metrics t = (t, .error .emptyData) ∧
    get_category_correlation t = (t, .error .emptyData) := by
  refine ⟨?_, ?_, ?_, ?_, ?_, ?_, ?_⟩ <;>
    simp [get_summary_statistics, analyze_time_series, get_spending_distribution,
      get_top_spending_categories, segment_customers, calculate_customer_metrics,
      get_category_correlation, h]

/-- Witness for C6 at a concrete empty table and concrete arguments. -/
theorem c6_witness :
    get_summary_statistics exEmpty (some "category") = (exEmpty, .error .emptyData) ∧
    analyze_time_series exEmpty .M (some "category") = (exEmpty, .error .emptyData) ∧
    get_spending_distribution exEmpty "category" = (exEmpty, .error .emptyData) ∧
    get_top_spending_categories exEmpty 5 = (exEmpty, .error .emptyData) ∧
    segment_customers exEmpty 3 = (exEmpty, .error .emptyData) ∧
    calculate_customer_metrics exEmpty = (exEmpty, .error .emptyData) ∧
    get_category_correlation exEmpty = (exEmpty, .error .emptyData) :=
  c6_empty_table_rejected exEmpty rfl (some "category") .M "category" 5 3

/-! ### C10: n_segments = 0 -/

/-- C10: on a nonempty table, `segment_customers` with `n_segments = 0`
reaches the unguarded integer division `len(customer_spending) // n_segments`
and raises `ZeroDivisionError` — an error outside the engine's
`emptyData`/`schemaError` taxonomy — returning no result. -/
theorem c10_zero_segments_division (t : Table) (ht : t.rows ≠ []) :
    segment_customers t 0 = (t, .error .zeroDivision) := by
  simp [segment_customers, ht]

/-- Witness for C10 at a concrete nonempty table. -/
theorem c10_witness :
    exTop.rows ≠ [] ∧ segment_customers exTop 0 = (exTop, .error .zeroDivision) :=
  ⟨by decide, c10_zero_segments_division exTop (by decide)⟩

/-! ### C1: input-table mutation -/

/-- C1 (amended): every operation except `analyze_time_series` returns
`self.data` unchanged, whether it succeeds or fails; `analyze_time_series`
leaves the table unchanged when validation fails or the `date` column
already has datetime dtype, and otherwise replaces the `date` column in
place by its datetime-coerced value
(`self.data['date'] = pd.to_datetime(self.data['date'])`). -/
theorem c1_amended_no_mutation_except_resample
    (t : Table) (g : Option String) (f : Freq) (b : String) (n k : ℤ) :
    (get_summary_statistics t g).1 = t ∧
    (get_spending_distribution t b).1 = t ∧
    (get_top_spending_categories t n).1 = t ∧
    (segment_customers t k).1 = t ∧
    (calculate_customer_metrics t).1 = t ∧
    (get_category_correlation t).1 = t ∧
    (analyze_time_series t f g).1 =
      (if t.rows = [] ∨ t.dateIsDatetime then t else { t with dateIsDatetime := true }) := by
  refine ⟨?_, ?_, ?_, ?_, ?_, ?_, ?_⟩
  · simp [get_summary_statistics, apply_ite Prod.fst]
  · simp [get_spending_distribution, apply_ite Prod.fst]
  · by_cases h : t.rows = [] <;> simp [get_top_spending_categories, h]
    cases hd : (get_spending_distribution t "category").2 <;> simp [hd]
  · simp [segment_customers, apply_ite Prod.fst]
  · simp [calculate_customer_metrics, apply_ite Prod.fst]
  · simp [get_category_correlation, apply_ite Prod.fst]
  · by_cases h : t.rows = [] <;> by_cases hd : t.dateIsDatetime <;>
      simp [analyze_time_series, h, hd, apply_ite Prod.fst]

/-- C1 counterexample: on a concrete nonempty table whose `date` column
is not yet datetime-typed, `analyze_time_series` hands back a mutated
`self.data` (the dtype of the `date` column changed in place), so the
input table is not unchanged after the call. -/
theorem c1_counterexample_resample_mutates :
    (analyze_time_series exGapRaw .M none).1.dateIsDatetime = true ∧
    exGapRaw.dateIsDatetime = false ∧
    (analyze_time_series exGapRaw .M none).1 ≠ exGapRaw := by
  refine ⟨rfl, rfl, ?_⟩
  intro h
  exact absurd (congrArg Table.dateIsDatetime h) (by decide)

/-! ### C2: time-bucketed resampling -/

theorem bucketLo_le (f : Freq) (r : Row) (rest : List Row) :
    ∀ x ∈ r :: rest,
      (rest.map (fun x => bucketId f x.date)).foldl min (bucketId f r.date) ≤ bucketId f x.date := by
  intro x hx
  rcases List.mem_cons.mp hx with rfl | hx'
  · exact foldl_min_le_init _ _
  · have h := List.mem_map_of_mem (fun x => bucketId f x.date) hx'
    exact foldl_min_le_mem _ _ _ h

theorem le_bucketHi (f : Freq) (r : Row) (rest : List Row) :
    ∀ x ∈ r :: rest,
      bucketId f x.date ≤ (rest.map (fun x => bucketId f x.date)).foldl max (bucketId f r.date) := by
  intro x hx
  rcases List.mem_cons.mp hx with rfl | hx'
  · exact le_foldl_max_init _ _
  · have h := List.mem_map_of_mem (fun x => bucketId f x.date) hx'
    exact le_foldl_max_mem _ _ _ h

/-- C2 (amended): on a nonempty table, `analyze_time_series` without
grouping returns one bucket per period from the earliest record's period
to the latest record's period inclusive — periods holding no record are
synthesized with sum 0, not skipped — in chronological order, each
bucket's value the sum of the amounts of the records whose date
truncates into that period.  Formally: the bucket axis is strictly
increasing, every record's bucket appears, every bucket's value is the
sum over its records, and every period lying between two emitted buckets
is itself emitted. -/
theorem resampleRange_pairwise (f : Freq) (rows : List Row) (lo hi : ℤ) :
    (resampleRange f rows lo hi).Pairwise (fun p q => p.1 < q.1) := by
  unfold resampleRange
  rw [List.pairwise_map]
  refine List.Pairwise.imp ?_ (List.pairwise_lt_range ((hi + 1 - lo).toNat))
  intro a b hab
  show lo + (a : ℤ) < lo + (b : ℤ)
  omega

theorem resampleRange_mem (f : Freq) (rows : List Row) (lo hi bid : ℤ)
    (h1 : lo ≤ bid) (h2 : bid ≤ hi) :
    (bid, ((rows.filter (fun x => bucketId f x.date = bid)).map Row.amount).sum) ∈
      resampleRange f rows lo hi := by
  unfold resampleRange
  have hmem := List.mem_map_of_mem
      (fun i : ℕ => (lo + (i : ℤ),
        ((rows.filter (fun x => bucketId f x.date = lo + (i : ℤ))).map Row.amount).sum))
      (List.mem_range.mpr (show (bid - lo).toNat < (hi + 1 - lo).toNat by omega))
  have hco : lo + (((bid - lo).toNat : ℕ) : ℤ) = bid := by omega
  simp only [] at hmem
  rw [hco] at hmem
  exact hmem

theorem resampleRange_elem (f : Freq) (rows : List Row) (lo hi : ℤ) (p : ℤ × ℚ)
    (hp : p ∈ resampleRange f rows lo hi) :
    p.2 = ((rows.filter (fun x => bucketId f x.date = p.1)).map Row.amount).sum ∧
      lo ≤ p.1 ∧ p.1 ≤ hi := by
  unfold resampleRange at hp
  rcases List.mem_map.mp hp with ⟨i, hi_mem, rfl⟩
  have := List.mem_range.mp hi_mem
  exact ⟨rfl, by omega, by omega⟩

/-- C2 (amended): on a nonempty table, `analyze_time_series` without
grouping returns one bucket per period from the earliest record's period
to the latest record's period inclusive — periods holding no record are
synthesized with sum 0, not skipped — in chronological order, each
bucket's value the sum of the amounts of the records whose date
truncates into that period.  Formally: the bucket axis is strictly
increasing, every record's bucket appears, every bucket's value is the
sum over its records, and every period lying between two emitted buckets
is itself emitted. -/
theorem c2_amended_resample_gapfilled (t : Table) (ht : t.rows ≠ []) (f : Freq) :
    ∃ s, (analyze_time_series t f none).2 = .ok (.series s) ∧
      s.Pairwise (fun p q => p.1 < q.1) ∧
      (∀ r ∈ t.rows, ∃ v, (bucketId f r.date, v) ∈ s) ∧
      (∀ p ∈ s, p.2 = ((t.rows.filter (fun x => bucketId f x.date = p.1)).map Row.amount).sum) ∧
      (∀ p ∈ s, ∀ q ∈ s, ∀ bid : ℤ, p.1 ≤ bid → bid ≤ q.1 → ∃ v, (bid, v) ∈ s) := by
  refine ⟨resampleSumSeries f t.rows, ?_, ?_⟩
  · by_cases hd : t.dateIsDatetime <;> simp [analyze_time_series, ht, hd, optTruthy]
  obtain ⟨r, rest, hrw⟩ := List.exists_cons_of_ne_nil ht
  rw [hrw]
  have e : resampleSumSeries f (r :: rest) =
      resampleRange f (r :: rest)
        ((rest.map (fun x => bucketId f x.date)).foldl min (bucketId f r.date))
        ((rest.map (fun x => bucketId f x.date)).foldl max (bucketId f r.date)) := rfl
  have hlo_le := bucketLo_le f r rest
  have hhi_ge := le_bucketHi f r rest
  rw [e]
  set lo : ℤ := (rest.map (fun x => bucketId f x.date)).foldl min (bucketId f r.date) with hlodef
  set hi : ℤ := (rest.map (fun x => bucketId f x.date)).foldl max (bucketId f r.date) with hhidef
  refine ⟨?_, ?_, ?_, ?_⟩
  · exact resampleRange_pairwise f (r :: rest) lo hi
  · intro x hx
    exact ⟨_, resampleRange_mem f (r :: rest) lo hi _ (hlo_le x hx) (hhi_ge x hx)⟩
  · intro p hp
    exact (resampleRange_elem f (r :: rest) lo hi p hp).1
  · intro p hp q hq bid hpb hbq
    obtain ⟨-, hplo, -⟩ := resampleRange_elem f (r :: rest) lo hi p hp
    obtain ⟨-, -, hqhi⟩ := resampleRange_elem f (r :: rest) lo hi q hq
    exact ⟨_, resampleRange_mem f (r :: rest) lo hi bid (le_trans hplo hpb) (le_trans hbq hqhi)⟩

/-- C2 counterexample: for the concrete table with records only in
January and March 2023, the claim "the output contains exactly the
buckets that hold at least one record" fails — the February 2023 bucket
(id 24277) appears in the output with sum 0 although no record falls in
it. -/
theorem c2_counterexample_empty_bucket_synthesized :
    (∃ s, (analyze_time_series exGapRaw .M none).2 = .ok (.series s) ∧
       s.map Prod.fst = [24276, 24277, 24278] ∧
       (24277, (0 : ℚ)) ∈ s) ∧
    exGapRaw.rows.all (fun r => decide (bucketId .M r.date ≠ 24277)) = true := by
  refine ⟨⟨resampleSumSeries .M exGapRaw.rows, rfl, by decide, by decide⟩, by decide⟩

/-- Witness for C2 (amended) at a concrete table and frequency. -/
theorem c2_witness :
    exGapRaw.rows ≠ [] ∧
    (∃ s, (analyze_time_series exGapRaw .M none).2 = .ok (.series s) ∧
      s.Pairwise (fun p q => p.1 < q.1) ∧
      (∀ r ∈ exGapRaw.rows, ∃ v, (bucketId .M r.date, v) ∈ s) ∧
      (∀ p ∈ s, p.2 = ((exGapRaw.rows.filter (fun x => bucketId .M x.date = p.1)).map Row.amount).sum) ∧
      (∀ p ∈ s, ∀ q ∈ s, ∀ bid : ℤ, p.1 ≤ bid → bid ≤ q.1 → ∃ v, (bid, v) ∈ s)) :=
  ⟨by decide, c2_amended_resample_gapfilled exGapRaw (by decide) .M⟩


/-! ### C7: schema errors for named columns -/

/-- C7 (amended): for a nonempty table, `get_spending_distribution`
fails with a schema error exactly when `byCol` is not among the table's
columns; `get_summary_statistics` and `analyze_time_series` fail with a
schema error exactly when the supplied `groupby` string is non-empty and
not among the columns — the empty string is falsy in Python
(`if groupby:`), so it selects the ungrouped path instead of failing. -/
theorem c7_amended_schema_error_iff (t : Table) (ht : t.rows ≠ []) (g bc : String) (f : Freq) :
    ((∃ c, (get_summary_statistics t (some g)).2 = .error (.schemaError c)) ↔
      (g ≠ "" ∧ g ∉ tableColumns)) ∧
    ((∃ c, (analyze_time_series t f (some g)).2 = .error (.schemaError c)) ↔
      (g ≠ "" ∧ g ∉ tableColumns)) ∧
    ((∃ c, (get_spending_distribution t bc).2 = .error (.schemaError c)) ↔ bc ∉ tableColumns) := by
  refine ⟨?_, ?_, ?_⟩
  · by_cases hg : g = ""
    · subst hg
      simp [get_summary_statistics, ht, optTruthy]
    · by_cases hmem : g ∈ tableColumns
      · simp [get_summary_statistics, ht, optTruthy, hg, hmem]
      · simp [get_summary_statistics, ht, optTruthy, hg, hmem]
  · by_cases hg : g = ""
    · subst hg
      by_cases hd : t.dateIsDatetime <;>
        simp [analyze_time_series, ht, hd, optTruthy]
    · by_cases hmem : g ∈ tableColumns
      · by_cases hd : t.dateIsDatetime <;>
          simp [analyze_time_series, ht, hd, optTruthy, hg, hmem] <;>
          split <;> simp
      · by_cases hd : t.dateIsDatetime <;>
          simp [analyze_time_series, ht, hd, optTruthy, hg, hmem]
  · by_cases hmem : bc ∈ tableColumns
    · simp [get_spending_distribution, ht, hmem]
    · simp [get_spending_distribution, ht, hmem]

/-- C7 counterexample: with `groupCol = ""` — a supplied column name
that is not among the table's columns — `get_summary_statistics`
succeeds with the ungrouped describe series instead of failing with a
schema error, refuting the claimed "if and only if". -/
theorem c7_counterexample_empty_string_column :
    ("" ∉ tableColumns) ∧
    (get_summary_statistics exTie (some "")).2 =
      .ok (.describe (describeStats (exTie.rows.map Row.amount))) :=
  ⟨by decide, rfl⟩

/-- Witness for C7 (amended) at a concrete table and column names. -/
theorem c7_witness :
    exTie.rows ≠ [] ∧
    (((∃ c, (get_summary_statistics exTie (some "nope")).2 = .error (.schemaError c)) ↔
        ("nope" ≠ "" ∧ "nope" ∉ tableColumns)) ∧
      ((∃ c, (analyze_time_series exTie .M (some "nope")).2 = .error (.schemaError c)) ↔
        ("nope" ≠ "" ∧ "nope" ∉ tableColumns)) ∧
      ((∃ c, (get_spending_distribution exTie "customer_id").2 = .error (.schemaError c)) ↔
        "customer_id" ∉ tableColumns)) :=
  ⟨by decide, c7_amended_schema_error_iff exTie (by decide) "nope" "customer_id" .M⟩

/-! ### C8: ungrouped summary -/

theorem minQ_le_mem (xs : List ℚ) (x : ℚ) (hx : x ∈ xs) : minQ xs ≤ x := by
  cases xs with
  | nil => cases hx
  | cons a l =>
    rcases List.mem_cons.mp hx with rfl | h
    · exact foldl_min_le_init _ _
    · exact foldl_min_le_mem _ _ _ h

theorem le_maxQ_mem (xs : List ℚ) (x : ℚ) (hx : x ∈ xs) : x ≤ maxQ xs := by
  cases xs with
  | nil => cases hx
  | cons a l =>
    rcases List.mem_cons.mp hx with rfl | h
    · exact le_foldl_max_init _ _
    · exact le_foldl_max_mem _ _ _ h

/-- C8 (amended): on a nonempty table, `get_summary_statistics` without
`groupby` returns the pandas `describe()` series — the eight statistics
{count, mean, std, min, 25%, 50%, 75%, max}, which strictly contains the
claimed six (the two quartiles 25% and 75% are also present).  Its count
equals the number of rows, its mean times the row count is the total
amount, its standard deviation is NaN on a single row and otherwise the
square root of the unbiased (n-1) sample variance, its 50% entry is the
interpolated median, and its min/max bound every amount. -/
theorem c8_amended_describe (t : Table) (ht : t.rows ≠ []) :
    ∃ stats, get_summary_statistics t none = (t, .ok (.describe stats)) ∧
      stats.map Prod.fst = ["count", "mean", "std", "min", "25%", "50%", "75%", "max"] ∧
      stats.lookup "count" = some (.q ((t.rows.length : ℚ))) ∧
      stats.lookup "mean" = some (.q (meanQ (t.rows.map Row.amount))) ∧
      meanQ (t.rows.map Row.amount) * ((t.rows.length : ℚ)) = (t.rows.map Row.amount).sum ∧
      (t.rows.length = 1 → stats.lookup "std" = some .nan) ∧
      (2 ≤ t.rows.length →
        stats.lookup "std" = some (.sqrtQ (sampleVar (t.rows.map Row.amount)))) ∧
      stats.lookup "50%" = some (.q (quantileQ (1/2) (sortQ (t.rows.map Row.amount)))) ∧
      (∀ r ∈ t.rows, minQ (t.rows.map Row.amount) ≤ r.amount ∧
        r.amount ≤ maxQ (t.rows.map Row.amount)) := by
  refine ⟨describeStats (t.rows.map Row.amount), ?_, rfl, ?_, ?_, ?_, ?_, ?_, ?_, ?_⟩
  · simp [get_summary_statistics, ht, optTruthy]
  · simp [describeStats, List.lookup]
  · simp [describeStats, List.lookup]
  · have hlen : (t.rows.map Row.amount).length = t.rows.length := List.length_map _ _
    have hne : ((t.rows.length : ℚ)) ≠ 0 := by
      exact_mod_cast Nat.cast_ne_zero.mpr (fun h0 => ht (List.length_eq_zero.mp h0))
    unfold meanQ
    rw [hlen]
    exact div_mul_cancel₀ _ hne
  · intro h1
    simp [describeStats, List.lookup, stdStat, List.length_map, h1]
  · intro h2
    have : ¬ (t.rows.length ≤ 1) := by omega
    simp [describeStats, List.lookup, stdStat, List.length_map, this]
  · simp [describeStats, List.lookup]
  · intro r hr
    exact ⟨minQ_le_mem _ _ (List.mem_map_of_mem Row.amount hr),
      le_maxQ_mem _ _ (List.mem_map_of_mem Row.amount hr)⟩

/-- C8 counterexample: the ungrouped summary is the full `describe()`
series; it contains the key "25%", which is not among the six statistics
the claim says the result consists of exactly. -/
theorem c8_counterexample_extra_percentiles :
    (get_summary_statistics exTie none).2 =
      .ok (.describe (describeStats (exTie.rows.map Row.amount))) ∧
    "25%" ∈ (describeStats (exTie.rows.map Row.amount)).map Prod.fst ∧
    "25%" ∉ ["count", "mean", "median", "std", "min", "max"] :=
  ⟨rfl, by decide, by decide⟩

/-- Witness for C8 (amended) at a concrete table. -/
theorem c8_witness :
    exTie.rows ≠ [] ∧
    (∃ stats, get_summary_statistics exTie none = (exTie, .ok (.describe stats)) ∧
      stats.map Prod.fst = ["count", "mean", "std", "min", "25%", "50%", "75%", "max"] ∧
      stats.lookup "count" = some (.q ((exTie.rows.length : ℚ))) ∧
      stats.lookup "mean" = some (.q (meanQ (exTie.rows.map Row.amount))) ∧
      meanQ (exTie.rows.map Row.amount) * ((exTie.rows.length : ℚ)) =
        (exTie.rows.map Row.amount).sum ∧
      (exTie.rows.length = 1 → stats.lookup "std" = some .nan) ∧
      (2 ≤ exTie.rows.length →
        stats.lookup "std" = some (.sqrtQ (sampleVar (exTie.rows.map Row.amount)))) ∧
      stats.lookup "50%" = some (.q (quantileQ (1/2) (sortQ (exTie.rows.map Row.amount)))) ∧
      (∀ r ∈ exTie.rows, minQ (exTie.rows.map Row.amount) ≤ r.amount ∧
        r.amount ≤ maxQ (exTie.rows.map Row.amount))) :=
  ⟨by decide, c8_amended_describe exTie (by decide)⟩

/-! ### C9: negative n in topN -/

/-- C9 (amended): on a nonempty table, `get_top_spending_categories`
with negative `n` raises no error at all (the code has no
`ParameterError`): pandas `head(n)` with `n < 0` silently returns the
distribution with its last `|n|` entries dropped — a truncated series. -/
theorem c9_amended_negative_head (t : Table) (ht : t.rows ≠ []) (n : ℤ) (hn : n < 0) :
    ∃ d, get_spending_distribution t "category" = (t, .ok d) ∧
      get_top_spending_categories t n = (t, .ok (d.take (d.length - n.natAbs))) ∧
      (d.take (d.length - n.natAbs)).length = d.length - min n.natAbs d.length ∧
      d.take (d.length - n.natAbs) ++ d.drop (d.length - n.natAbs) = d := by
  have hdist : get_spending_distribution t "category" =
      (t, .ok (sortValuesDesc Prod.snd (groupedSums (colKey "category") t))) := by
    unfold get_spending_distribution
    rw [if_neg (by simpa using ht), if_neg (by decide : ¬ ("category" ∉ tableColumns))]
  refine ⟨sortValuesDesc Prod.snd (groupedSums (colKey "category") t), hdist, ?_, ?_, ?_⟩
  · unfold get_top_spending_categories
    rw [if_neg (by simpa using ht), hdist]
    show (t, Except.ok (headInt n (sortValuesDesc Prod.snd (groupedSums (colKey "category") t)))) = _
    unfold headInt
    rw [if_neg (by omega)]
  · rw [List.length_take]
    omega
  · exact List.take_append_drop _ _

/-- C9 counterexample: on a concrete table with three categories summing
30 > 20 > 10, `get_top_spending_categories` with `n = -1` raises nothing
and silently returns the truncated two-entry series — not a
`ParameterError` (no such failure exists anywhere in the code). -/
theorem c9_counterexample_negative_n_no_error :
    (get_top_spending_categories exTop (-1)).2 =
      .ok [(.ks "e", 30), (.ks "g", 20)] := by
  simp [get_top_spending_categories, get_spending_distribution, sortValuesDesc,
    groupedSums, sortByB, uniqueKeys, firstSeen, groupAmountSum, colKey, GKey.leB,
    strLeB, lexLeB, charLtB, headInt, List.insertionSort, List.orderedInsert, exTop,
    tableColumns, optTruthy]
  norm_num

/-- Witness for C9 (amended) at a concrete table and `n = -1`. -/
theorem c9_witness :
    exTop.rows ≠ [] ∧ (-1 : ℤ) < 0 ∧
    (∃ d, get_spending_distribution exTop "category" = (exTop, .ok d) ∧
      get_top_spending_categories exTop (-1) = (exTop, .ok (d.take (d.length - (-1 : ℤ).natAbs))) ∧
      (d.take (d.length - (-1 : ℤ).natAbs)).length = d.length - min (-1 : ℤ).natAbs d.length ∧
      d.take (d.length - (-1 : ℤ).natAbs) ++ d.drop (d.length - (-1 : ℤ).natAbs) = d) :=
  ⟨by decide, by decide, c9_amended_negative_head exTop (by decide) (-1) (by decide)⟩


/-! ### C5: category correlation -/

theorem ssd_comm (t : Table) (c1 c2 : String) : ssd t c1 c2 = ssd t c2 c1 := by
  unfold ssd
  exact congrArg List.sum (List.map_congr_left (fun u _ => mul_comm _ _))

/-- C5: on a nonempty table, `get_category_correlation` returns the
category × category matrix whose `(c1, c2)` entry is the exact Pearson
coefficient `sign(cov) · √(cov²/(ssd₁·ssd₂))`; the matrix is symmetric,
every diagonal entry at a category of nonzero variance is exactly 1.0,
and a category with zero variance across customers yields the NaN entry
(`none`) for every pair involving it — no exception is raised. -/
theorem c5_correlation_matrix (t : Table) (ht : t.rows ≠ []) :
    (∃ M, get_category_correlation t = (t, .ok M) ∧
      M.map Prod.fst = categoryKeys t ∧
      (∀ mrow ∈ M, mrow.2.map Prod.fst = categoryKeys t ∧
        ∀ e ∈ mrow.2, e.2 = corrEntry t mrow.1 e.1)) ∧
    (∀ c1 c2, corrEntry t c1 c2 = corrEntry t c2 c1) ∧
    (∀ c, 0 < ssd t c c → corrEntry t c c = some (1, 1)) ∧
    (∀ c1 c2, ssd t c1 c1 = 0 → corrEntry t c1 c2 = none ∧ corrEntry t c2 c1 = none) := by
  refine ⟨?_, ?_, ?_, ?_⟩
  · refine ⟨(categoryKeys t).map (fun c1 =>
      (c1, (categoryKeys t).map (fun c2 => (c2, corrEntry t c1 c2)))), ?_, ?_, ?_⟩
    · simp [get_category_correlation, ht]
    · rw [List.map_map]
      exact (List.map_congr_left (fun a _ => rfl)).trans (List.map_id _)
    · intro mrow hmrow
      rcases List.mem_map.mp hmrow with ⟨c1, -, rfl⟩
      constructor
      · rw [List.map_map]
        exact (List.map_congr_left (fun a _ => rfl)).trans (List.map_id _)
      · intro e he
        rcases List.mem_map.mp he with ⟨c2, -, rfl⟩
        rfl
  · intro c1 c2
    by_cases h1 : ssd t c1 c1 = 0 <;> by_cases h2 : ssd t c2 c2 = 0 <;>
      simp [corrEntry, h1, h2, ssd_comm t c1 c2, mul_comm]
  · intro c h
    have hne : ssd t c c ≠ 0 := ne_of_gt h
    simp [corrEntry, hne, signQ, h, pow_two, div_self (mul_ne_zero hne hne)]
  · intro c1 c2 h
    constructor <;> simp [corrEntry, h]

/-- Witness for C5 at a concrete table (three categories, three
customers, each category bought by exactly one customer). -/
theorem c5_witness :
    exTie.rows ≠ [] ∧
    ((∃ M, get_category_correlation exTie = (exTie, .ok M) ∧
      M.map Prod.fst = categoryKeys exTie ∧
      (∀ mrow ∈ M, mrow.2.map Prod.fst = categoryKeys exTie ∧
        ∀ e ∈ mrow.2, e.2 = corrEntry exTie mrow.1 e.1)) ∧
    (∀ c1 c2, corrEntry exTie c1 c2 = corrEntry exTie c2 c1) ∧
    (∀ c, 0 < ssd exTie c c → corrEntry exTie c c = some (1, 1)) ∧
    (∀ c1 c2, ssd exTie c1 c1 = 0 →
      corrEntry exTie c1 c2 = none ∧ corrEntry exTie c2 c1 = none)) :=
  ⟨by decide, c5_correlation_matrix exTie (by decide)⟩


/-! ### C3: spend distribution and top-N -/

theorem char_toNat_inj (a b : Char) (h : a.toNat = b.toNat) : a = b := by
  apply Char.ext
  have hv : a.val.toNat = b.val.toNat := h
  cases hva : a.val
  cases hvb : b.val
  rw [hva, hvb] at hv
  congr 1
  exact BitVec.eq_of_toNat_eq hv

theorem lexLeB_total : ∀ (as bs : List Char), lexLeB as bs = true ∨ lexLeB bs as = true := by
  intro as
  induction as with
  | nil => intro bs; left; rfl
  | cons a as ih =>
    intro bs
    cases bs with
    | nil => right; rfl
    | cons b bs =>
      simp only [lexLeB, charLtB, decide_eq_true_eq]
      by_cases hab : a.toNat < b.toNat
      · left; simp [hab]
      · by_cases hba : b.toNat < a.toNat
        · right; simp [hba]
        · rcases ih bs with h | h
          · left; simp [hab, hba, h]
          · right; simp [hab, hba, h]

theorem lexLeB_trans : ∀ (as bs cs : List Char),
    lexLeB as bs = true → lexLeB bs cs = true → lexLeB as cs = true := by
  intro as
  induction as with
  | nil => intro bs cs h1 h2; rfl
  | cons a as ih =>
    intro bs cs h1 h2
    cases bs with
    | nil => simp [lexLeB] at h1
    | cons b bs =>
      cases cs with
      | nil => simp [lexLeB] at h2
      | cons c cs =>
        simp only [lexLeB, charLtB, decide_eq_true_eq] at h1 h2 ⊢
        by_cases hab : a.toNat < b.toNat
        · by_cases hbc : b.toNat < c.toNat
          · simp [show a.toNat < c.toNat by omega]
          · by_cases hcb : c.toNat < b.toNat
            · simp [hbc, hcb] at h2
            · simp [show a.toNat < c.toNat by omega]
        · by_cases hba : b.toNat < a.toNat
          · simp [hab, hba] at h1
          · by_cases hbc : b.toNat < c.toNat
            · simp [show a.toNat < c.toNat by omega]
            · by_cases hcb : c.toNat < b.toNat
              · simp [hbc, hcb] at h2
              · simp [hab, hba] at h1
                simp [hbc, hcb] at h2
                simp [show ¬ a.toNat < c.toNat by omega, show ¬ c.toNat < a.toNat by omega]
                exact ih bs cs h1 h2

theorem lexLeB_antisymm : ∀ (as bs : List Char),
    lexLeB as bs = true → lexLeB bs as = true → as = bs := by
  intro as
  induction as with
  | nil =>
    intro bs h1 h2
    cases bs with
    | nil => rfl
    | cons b bs => simp [lexLeB] at h2
  | cons a as ih =>
    intro bs h1 h2
    cases bs with
    | nil => simp [lexLeB] at h1
    | cons b bs =>
      simp only [lexLeB, charLtB, decide_eq_true_eq] at h1 h2
      by_cases hab : a.toNat < b.toNat
      · simp [show ¬ b.toNat < a.toNat by omega, hab] at h2
      · by_cases hba : b.toNat < a.toNat
        · simp [hab, hba] at h1
        · have hc : a = b := char_toNat_inj a b (by omega)
          simp [hab, hba] at h1
          simp [hab, hba] at h2
          rw [hc, ih bs h1 h2]

theorem strLeB_total (a b : String) : strLeB a b = true ∨ strLeB b a = true :=
  lexLeB_total a.data b.data

theorem strLeB_trans (a b c : String) (h1 : strLeB a b = true) (h2 : strLeB b c = true) :
    strLeB a c = true :=
  lexLeB_trans a.data b.data c.data h1 h2

theorem strLeB_antisymm (a b : String) (h1 : strLeB a b = true) (h2 : strLeB b a = true) :
    a = b := by
  have h := lexLeB_antisymm a.data b.data h1 h2
  cases a
  cases b
  exact congrArg String.mk h

theorem GKey.leB_total (a b : GKey) : a.leB b = true ∨ b.leB a = true := by
  cases a <;> cases b <;> simp [GKey.leB]
  · exact Int.le_total _ _
  · exact le_total _ _
  · exact strLeB_total _ _

theorem GKey.leB_trans (a b c : GKey) (h1 : a.leB b = true) (h2 : b.leB c = true) :
    a.leB c = true := by
  cases a <;> cases b <;> cases c <;> simp [GKey.leB] at h1 h2 ⊢
  · omega
  · exact le_trans h1 h2
  · exact strLeB_trans _ _ _ h1 h2

theorem GKey.leB_antisymm (a b : GKey) (h1 : a.leB b = true) (h2 : b.leB a = true) :
    a = b := by
  cases a <;> cases b <;> simp [GKey.leB] at h1 h2 ⊢
  · omega
  · exact le_antisymm h1 h2
  · exact strLeB_antisymm _ _ h1 h2

theorem mem_firstSeen [DecidableEq κ] :
    ∀ (l seen : List κ) (x : κ), x ∈ firstSeen seen l ↔ (x ∈ l ∧ x ∉ seen) := by
  intro l
  induction l with
  | nil => intro seen x; simp [firstSeen]
  | cons k ks ih =>
    intro seen x
    by_cases hk : k ∈ seen
    · rw [firstSeen, if_pos hk, ih]
      constructor
      · rintro ⟨hx, hs⟩
        exact ⟨List.mem_cons_of_mem _ hx, hs⟩
      · rintro ⟨hx, hs⟩
        rcases List.mem_cons.mp hx with rfl | hx'
        · exact absurd hk hs
        · exact ⟨hx', hs⟩
    · rw [firstSeen, if_neg hk]
      constructor
      · intro hx
        rcases List.mem_cons.mp hx with rfl | hx'
        · exact ⟨List.mem_cons_self _ _, hk⟩
        · rcases (ih (k :: seen) x).mp hx' with ⟨h1, h2⟩
          exact ⟨List.mem_cons_of_mem _ h1,
            fun hs => h2 (List.mem_cons_of_mem _ hs)⟩
      · rintro ⟨hx, hs⟩
        rcases List.mem_cons.mp hx with rfl | hx'
        · exact List.mem_cons_self _ _
        · by_cases hxk : x = k
          · subst hxk; exact List.mem_cons_self _ _
          · exact List.mem_cons_of_mem _ ((ih (k :: seen) x).mpr
              ⟨hx', by simp [hxk, hs]⟩)

theorem nodup_firstSeen [DecidableEq κ] : ∀ (l seen : List κ), (firstSeen seen l).Nodup := by
  intro l
  induction l with
  | nil => intro seen; simp [firstSeen]
  | cons k ks ih =>
    intro seen
    by_cases hk : k ∈ seen
    · rw [firstSeen, if_pos hk]; exact ih seen
    · rw [firstSeen, if_neg hk]
      refine List.nodup_cons.mpr ⟨?_, ih (k :: seen)⟩
      intro hmem
      exact ((mem_firstSeen ks (k :: seen) k).mp hmem).2 (List.mem_cons_self _ _)

theorem uniqueKeys_nodup [DecidableEq κ] (l : List κ) : (uniqueKeys l).Nodup :=
  nodup_firstSeen l []

theorem mem_uniqueKeys [DecidableEq κ] (l : List κ) (x : κ) : x ∈ uniqueKeys l ↔ x ∈ l := by
  rw [uniqueKeys, mem_firstSeen]
  simp

theorem uniqueKeys_ne_nil [DecidableEq κ] {l : List κ} (h : l ≠ []) : uniqueKeys l ≠ [] := by
  cases l with
  | nil => exact absurd rfl h
  | cons k ks => simp [uniqueKeys, firstSeen]

theorem sortByB_perm (le : κ → κ → Bool) (l : List κ) : (sortByB le l).Perm l :=
  List.perm_insertionSort _ l

theorem sortByB_sorted (le : κ → κ → Bool)
    (htot : ∀ a b, le a b = true ∨ le b a = true)
    (htrans : ∀ a b c, le a b = true → le b c = true → le a c = true) (l : List κ) :
    (sortByB le l).Pairwise (fun a b => le a b = true) := by
  haveI : IsTotal κ (fun a b => le a b = true) := ⟨htot⟩
  haveI : IsTrans κ (fun a b => le a b = true) := ⟨fun a b c => htrans a b c⟩
  exact List.sorted_insertionSort _ l

theorem sortValuesDesc_perm (f : α → ℚ) (l : List α) : (sortValuesDesc f l).Perm l :=
  (List.reverse_perm _).trans (List.perm_insertionSort _ l)

theorem sortValuesDesc_sorted (f : α → ℚ) (l : List α) :
    (sortValuesDesc f l).Pairwise (fun a b => f b ≤ f a) := by
  unfold sortValuesDesc
  rw [List.pairwise_reverse]
  haveI : IsTotal α (fun a b => f a ≤ f b) := ⟨fun a b => le_total _ _⟩
  haveI : IsTrans α (fun a b => f a ≤ f b) := ⟨fun a b c h1 h2 => le_trans h1 h2⟩
  exact List.sorted_insertionSort _ l

theorem orderedInsert_pairwise_lex (a : GKey × ℚ) (l : List (GKey × ℚ))
    (hQ : l.Pairwise (fun p q => p.2 < q.2 ∨ (p.2 = q.2 ∧ (GKey.leB p.1 q.1 = true ∧ p.1 ≠ q.1))))
    (hk : ∀ y ∈ l, GKey.leB a.1 y.1 = true ∧ a.1 ≠ y.1) :
    (List.orderedInsert (fun p q : GKey × ℚ => p.2 ≤ q.2) a l).Pairwise
      (fun p q => p.2 < q.2 ∨ (p.2 = q.2 ∧ (GKey.leB p.1 q.1 = true ∧ p.1 ≠ q.1))) := by
  induction l with
  | nil => simp
  | cons b l ih =>
    rcases List.pairwise_cons.mp hQ with ⟨hb, hl⟩
    by_cases hab : a.2 ≤ b.2
    · rw [List.orderedInsert, if_pos hab]
      refine List.pairwise_cons.mpr ⟨?_, hQ⟩
      intro y hy
      rcases List.mem_cons.mp hy with rfl | hy'
      · rcases lt_or_eq_of_le hab with h | h
        · exact Or.inl h
        · exact Or.inr ⟨h, hk y (List.mem_cons_self _ _)⟩
      · have hby : b.2 ≤ y.2 := by
          rcases hb y hy' with h | ⟨h, -⟩
          · exact le_of_lt h
          · exact le_of_eq h
        rcases lt_or_eq_of_le (le_trans hab hby) with h | h
        · exact Or.inl h
        · exact Or.inr ⟨h, hk y (List.mem_cons_of_mem _ hy')⟩
    · rw [List.orderedInsert, if_neg hab]
      refine List.pairwise_cons.mpr
        ⟨?_, ih hl (fun y hy => hk y (List.mem_cons_of_mem _ hy))⟩
      intro y hy
      rcases (List.mem_orderedInsert _).mp hy with rfl | hy'
      · exact Or.inl (lt_of_not_le hab)
      · exact hb y hy'

theorem insertionSort_pairwise_lex (l : List (GKey × ℚ))
    (h : l.Pairwise (fun p q => GKey.leB p.1 q.1 = true ∧ p.1 ≠ q.1)) :
    (List.insertionSort (fun p q : GKey × ℚ => p.2 ≤ q.2) l).Pairwise
      (fun p q => p.2 < q.2 ∨ (p.2 = q.2 ∧ (GKey.leB p.1 q.1 = true ∧ p.1 ≠ q.1))) := by
  induction l with
  | nil => simp
  | cons a l ih =>
    rcases List.pairwise_cons.mp h with ⟨ha, hl⟩
    rw [List.insertionSort]
    refine orderedInsert_pairwise_lex a _ (ih hl) ?_
    intro y hy
    exact ha y ((List.perm_insertionSort _ l).mem_iff.mp hy)

/-- C3 (amended): on a nonempty table with an existing `byCol`,
`get_spending_distribution` maps each distinct value of `byCol` (each
exactly once) to the sum of `amount` over its rows, ordered descending
by summed value; tied groups appear in **descending group-key order** —
the reverse of the ascending key order `groupby` pre-sorts them into —
not in first-seen row order.  `get_top_spending_categories` with `n ≥ 0`
is the length-`min(n, distinct categories)` prefix of the category
distribution, so `n = 0` gives the empty series and large `n` returns
the whole distribution without error. -/
theorem c3_amended_distribution (t : Table) (ht : t.rows ≠ []) (bc : String)
    (hbc : bc ∈ tableColumns) :
    ∃ s, get_spending_distribution t bc = (t, .ok s) ∧
      (s.map Prod.fst).Perm (uniqueKeys (t.rows.map (colKey bc))) ∧
      (∀ p ∈ s, p.2 = groupAmountSum (colKey bc) t p.1) ∧
      s.Pairwise (fun p q => q.2 < p.2 ∨ (q.2 = p.2 ∧ (GKey.leB q.1 p.1 = true ∧ q.1 ≠ p.1))) ∧
      (∀ n : ℤ, 0 ≤ n → ∃ d, get_spending_distribution t "category" = (t, .ok d) ∧
        get_top_spending_categories t n = (t, .ok (d.take n.toNat)) ∧
        (d.take n.toNat).length = min n.toNat d.length) := by
  have hkeys := sortByB_sorted GKey.leB GKey.leB_total GKey.leB_trans
      (uniqueKeys (t.rows.map (colKey bc)))
  have hnd : (sortByB GKey.leB (uniqueKeys (t.rows.map (colKey bc)))).Nodup :=
    (sortByB_perm _ _).nodup_iff.mpr (uniqueKeys_nodup _)
  have hstrict := hkeys.and hnd
  refine ⟨sortValuesDesc Prod.snd (groupedSums (colKey bc) t), ?_, ?_, ?_, ?_, ?_⟩
  · unfold get_spending_distribution
    rw [if_neg ht, if_neg (not_not_intro hbc)]
  · have h1 : (sortValuesDesc Prod.snd (groupedSums (colKey bc) t)).map Prod.fst
        = ((List.insertionSort (fun p q : GKey × ℚ => p.2 ≤ q.2)
            (groupedSums (colKey bc) t)).map Prod.fst).reverse := by
      unfold sortValuesDesc
      exact List.map_reverse _ _
    rw [h1]
    refine (List.reverse_perm _).trans ?_
    refine (((List.perm_insertionSort _ _).map Prod.fst).trans ?_)
    have h2 : (groupedSums (colKey bc) t).map Prod.fst
        = sortByB GKey.leB (uniqueKeys (t.rows.map (colKey bc))) := by
      unfold groupedSums
      rw [List.map_map]
      exact (List.map_congr_left (fun a _ => rfl)).trans (List.map_id _)
    rw [h2]
    exact sortByB_perm _ _
  · intro p hp
    have hp' : p ∈ groupedSums (colKey bc) t :=
      (sortValuesDesc_perm _ _).mem_iff.mp hp
    rcases List.mem_map.mp hp' with ⟨k, -, rfl⟩
    rfl
  · have hg : (groupedSums (colKey bc) t).Pairwise
        (fun p q => GKey.leB p.1 q.1 = true ∧ p.1 ≠ q.1) := by
      unfold groupedSums
      exact List.pairwise_map.mpr hstrict
    unfold sortValuesDesc
    rw [List.pairwise_reverse]
    exact insertionSort_pairwise_lex _ hg
  · intro n hn
    have hdist : get_spending_distribution t "category" =
        (t, .ok (sortValuesDesc Prod.snd (groupedSums (colKey "category") t))) := by
      unfold get_spending_distribution
      rw [if_neg ht, if_neg (by decide : ¬ ("category" ∉ tableColumns))]
    refine ⟨sortValuesDesc Prod.snd (groupedSums (colKey "category") t), hdist, ?_, ?_⟩
    · unfold get_top_spending_categories
      rw [if_neg ht, hdist]
      show (t, Except.ok (headInt n _)) = _
      unfold headInt
      rw [if_pos hn]
    · rw [List.length_take]

/-- C3 counterexample: three categories seen in row order "b", "a", "c",
all tied at summed amount 10.  The distribution returns them as
"c", "b", "a" — descending key order — not in the first-seen order
"b", "a", "c" the claim requires for ties. -/
theorem c3_counterexample_ties_not_first_seen :
    (get_spending_distribution exTie "category").2 =
      .ok [(.ks "c", 10), (.ks "b", 10), (.ks "a", 10)] ∧
    uniqueKeys (exTie.rows.map Row.category) = ["b", "a", "c"] ∧
    ([(GKey.ks "c", (10 : ℚ)), (.ks "b", 10), (.ks "a", 10)].map Prod.fst ≠
      ["b", "a", "c"].map GKey.ks) := by
  refine ⟨?_, by decide, by decide⟩
  simp [get_spending_distribution, sortValuesDesc, groupedSums, sortByB, uniqueKeys,
    firstSeen, groupAmountSum, colKey, GKey.leB, strLeB, lexLeB, charLtB, exTie,
    tableColumns, List.insertionSort, List.orderedInsert]

/-- Witness for C3 (amended) at a concrete table and column. -/
theorem c3_witness :
    exTie.rows ≠ [] ∧ "category" ∈ tableColumns ∧
    (∃ s, get_spending_distribution exTie "category" = (exTie, .ok s) ∧
      (s.map Prod.fst).Perm (uniqueKeys (exTie.rows.map (colKey "category"))) ∧
      (∀ p ∈ s, p.2 = groupAmountSum (colKey "category") exTie p.1) ∧
      s.Pairwise (fun p q => q.2 < p.2 ∨ (q.2 = p.2 ∧ (GKey.leB q.1 p.1 = true ∧ q.1 ≠ p.1))) ∧
      (∀ n : ℤ, 0 ≤ n → ∃ d, get_spending_distribution exTie "category" = (exTie, .ok d) ∧
        get_top_spending_categories exTie n = (exTie, .ok (d.take n.toNat)) ∧
        (d.take n.toNat).length = min n.toNat d.length)) :=
  ⟨by decide, by decide, c3_amended_distribution exTie (by decide) "category" (by decide)⟩


/-! ### C4: customer segmentation -/

theorem zipWith3_map_fst :
    ∀ (L1 : List (String × ℚ)) (L2 : List String), L1.length = L2.length →
      (List.zipWith (fun p lab => (p.1, p.2, lab)) L1 L2).map (fun x => x.1) = L1.map Prod.fst := by
  intro L1
  induction L1 with
  | nil => intro L2 h; simp
  | cons a L1 ih =>
    intro L2 h
    cases L2 with
    | nil => simp at h
    | cons b L2 => simp [ih L2 (by simpa using h)]

theorem zipWith3_map_val :
    ∀ (L1 : List (String × ℚ)) (L2 : List String), L1.length = L2.length →
      (List.zipWith (fun p lab => (p.1, p.2, lab)) L1 L2).map (fun x => x.2.1) =
        L1.map Prod.snd := by
  intro L1
  induction L1 with
  | nil => intro L2 h; simp
  | cons a L1 ih =>
    intro L2 h
    cases L2 with
    | nil => simp at h
    | cons b L2 => simp [ih L2 (by simpa using h)]

theorem zipWith3_map_lab :
    ∀ (L1 : List (String × ℚ)) (L2 : List String), L1.length = L2.length →
      (List.zipWith (fun p lab => (p.1, p.2, lab)) L1 L2).map (fun x => x.2.2) = L2 := by
  intro L1
  induction L1 with
  | nil => intro L2 h; cases L2 with
    | nil => simp
    | cons b L2 => simp at h
  | cons a L1 ih =>
    intro L2 h
    cases L2 with
    | nil => simp at h
    | cons b L2 => simp [ih L2 (by simpa using h)]

theorem zipWith3_mem :
    ∀ (L1 : List (String × ℚ)) (L2 : List String) (p : String × ℚ × String),
      p ∈ List.zipWith (fun p lab => (p.1, p.2, lab)) L1 L2 → (p.1, p.2.1) ∈ L1 := by
  intro L1
  induction L1 with
  | nil => intro L2 p hp; simp at hp
  | cons a L1 ih =>
    intro L2 p hp
    cases L2 with
    | nil => simp at hp
    | cons b L2 =>
      rcases List.mem_cons.mp hp with rfl | hp'
      · simp
      · exact List.mem_cons_of_mem _ (ih L2 p hp')

theorem segments_int_eq (nSeg segSize : ℤ) (L : ℕ) (hs : 1 ≤ segSize) :
    ((List.range nSeg.toNat).flatMap (fun i =>
      List.replicate (((if (i : ℤ) < nSeg - 1 then ((i : ℤ) + 1) * segSize else (L : ℤ)) -
        (i : ℤ) * segSize).toNat) ("Segment " ++ toString (i + 1))))
    = (List.range nSeg.toNat).flatMap (fun i =>
        List.replicate (if i + 1 < nSeg.toNat then segSize.toNat
          else L - (nSeg.toNat - 1) * segSize.toNat) ("Segment " ++ toString (i + 1))) := by
  refine List.flatMap_congr ?_
  intro i hi
  have hik : i < nSeg.toNat := List.mem_range.mp hi
  congr 1
  by_cases h : i + 1 < nSeg.toNat
  · rw [if_pos (show (i : ℤ) < nSeg - 1 by omega), if_pos h]
    have e : ((i : ℤ) + 1) * segSize - (i : ℤ) * segSize = segSize := by ring
    rw [e]
  · rw [if_neg (show ¬ (i : ℤ) < nSeg - 1 by omega), if_neg h]
    have hieq : i = nSeg.toNat - 1 := by omega
    subst hieq
    have hcast : ((nSeg.toNat - 1 : ℕ) : ℤ) * segSize =
        (((nSeg.toNat - 1) * segSize.toNat : ℕ) : ℤ) := by
      push_cast [Int.toNat_of_nonneg (by omega : (0:ℤ) ≤ segSize)]
      ring
    rw [hcast]
    omega

theorem segments_nat_length (k s L : ℕ) (hk : 1 ≤ k) (hle : (k - 1) * s ≤ L)
    (lab : ℕ → String) :
    ((List.range k).flatMap (fun i =>
      List.replicate (if i + 1 < k then s else L - (k - 1) * s) (lab i))).length = L := by
  rw [List.length_flatMap]
  have hk' : k = (k - 1) + 1 := by omega
  rw [hk', List.range_succ, List.map_append, List.sum_append]
  have h1 : List.map (List.length ∘ fun i =>
      List.replicate (if i + 1 < k - 1 + 1 then s else L - (k - 1 + 1 - 1) * s) (lab i))
      (List.range (k - 1)) = List.map (fun _ => s) (List.range (k - 1)) := by
    refine List.map_congr_left ?_
    intro i hi
    have hik : i < k - 1 := List.mem_range.mp hi
    simp only [Function.comp_apply, List.length_replicate]
    rw [if_pos (by omega)]
  rw [h1, List.map_const', List.sum_replicate, smul_eq_mul, List.length_range]
  simp only [List.map_cons, List.map_nil, Function.comp_apply, List.sum_cons, List.sum_nil]
  rw [if_neg (by omega), List.length_replicate]
  simp only [Nat.add_sub_cancel]
  omega

/-- Unfolded form of `segment_customers` on a nonempty table with
nonzero `n_segments`. -/
theorem segment_customers_eq (t : Table) (ht : ¬ t.rows = []) (n : ℤ) (hn : ¬ n = 0) :
    segment_customers t n =
      (let sorted := sortValuesDesc Prod.snd
        ((customerKeys t).map (fun c => (c, customerTotal t c)))
       let size0 : ℤ := Int.fdiv (sorted.length : ℤ) n
       let segSize : ℤ := if size0 = 0 then 1 else size0
       let nSeg : ℤ := if size0 = 0 then (sorted.length : ℤ) else n
       let segments : List String := (List.range nSeg.toNat).flatMap (fun i =>
         List.replicate (((if (i : ℤ) < nSeg - 1 then ((i : ℤ) + 1) * segSize
           else (sorted.length : ℤ)) - (i : ℤ) * segSize)).toNat
           ("Segment " ++ toString (i + 1)))
       if segments.length ≠ sorted.length then (t, .error .valueError)
       else (t, .ok (List.zipWith (fun p lab => (p.1, p.2, lab)) sorted segments))) := by
  simp only [segment_customers]
  rw [if_neg ht, if_neg hn]

/-- C4: on a nonempty table and `nSegments ≥ 1`, `segment_customers`
assigns each distinct customer to exactly one row of the result (no
duplicates, no omissions), carrying the customer's total amount, in
descending order of total; the label column consists of the band layout
§4.4 prescribes: `nSegments` contiguous bands of size
`floor(N/nSegments)` with the last band absorbing the remainder, and
when that floor is 0 (fewer customers than segments) the band count is
reduced to the customer count with every band a singleton. -/
theorem c4_segments (t : Table) (ht : t.rows ≠ []) (n : ℤ) (hn : 1 ≤ n) :
    ∃ sr, segment_customers t n = (t, .ok sr) ∧
      sr.length = (uniqueKeys (t.rows.map Row.customer_id)).length ∧
      (sr.map (fun x => x.1)).Perm (uniqueKeys (t.rows.map Row.customer_id)) ∧
      (∀ p ∈ sr, p.2.1 = customerTotal t p.1) ∧
      (sr.map (fun x => x.2.1)).Pairwise (fun a b => b ≤ a) ∧
      sr.map (fun x => x.2.2) =
        specBandLabels (uniqueKeys (t.rows.map Row.customer_id)).length n := by
  have hmapne : t.rows.map Row.customer_id ≠ [] :=
    fun h => ht (List.map_eq_nil_iff.mp h)
  have hN1 : 1 ≤ (uniqueKeys (t.rows.map Row.customer_id)).length :=
    List.length_pos.mpr (uniqueKeys_ne_nil hmapne)
  rw [segment_customers_eq t ht n (by omega)]
  set N := (uniqueKeys (t.rows.map Row.customer_id)).length with hNdef
  set cs := (customerKeys t).map (fun c => (c, customerTotal t c)) with hcs
  set sorted := sortValuesDesc Prod.snd cs with hsorteddef
  have hlen : sorted.length = N := by
    rw [hsorteddef, hcs]
    rw [(sortValuesDesc_perm _ _).length_eq, List.length_map]
    exact (sortByB_perm _ _).length_eq
  simp only []
  rw [hlen]
  have hn0 : (0 : ℤ) < n := by omega
  have hfdiv : ((N : ℤ)).fdiv n = (N : ℤ) / n := Int.fdiv_eq_ediv _ (le_of_lt hn0)
  have hncast : (n : ℤ) = ((n.toNat : ℕ) : ℤ) := by omega
  by_cases hz : (N : ℤ) < n
  · -- fewer customers than segments: singleton bands
    have hsz : ((N : ℤ)).fdiv n = 0 := by
      rw [hfdiv]
      exact Int.ediv_eq_zero_of_lt (Int.natCast_nonneg N) hz
    rw [hsz]
    simp only [reduceIte]
    rw [segments_int_eq (N : ℤ) 1 N (le_refl 1)]
    simp only [Int.toNat_natCast, Int.toNat_one]
    have hL := segments_nat_length N 1 N hN1 (by omega) (fun i => "Segment " ++ toString (i + 1))
    rw [if_neg (show ¬ _ ≠ N by rw [hL]; exact not_not_intro rfl)]
    have hlens : ((List.range N).flatMap (fun i =>
        List.replicate (if i + 1 < N then 1 else N - (N - 1) * 1)
          ("Segment " ++ toString (i + 1)))).length = N := hL
    have hzip : sorted.length = ((List.range N).flatMap (fun i =>
        List.replicate (if i + 1 < N then 1 else N - (N - 1) * 1)
          ("Segment " ++ toString (i + 1)))).length := by rw [hlens, hlen]
    refine ⟨_, rfl, ?_, ?_, ?_, ?_, ?_⟩
    · rw [List.length_zipWith, hlen, hlens, min_self]
    · rw [zipWith3_map_fst sorted _ hzip]
      refine ((sortValuesDesc_perm _ _).map Prod.fst).trans ?_
      have h2 : cs.map Prod.fst = customerKeys t := by
        rw [hcs, List.map_map]
        exact (List.map_congr_left (fun a _ => rfl)).trans (List.map_id _)
      rw [h2]
      exact sortByB_perm _ _
    · intro p hp
      have h1 : (p.1, p.2.1) ∈ sorted := zipWith3_mem sorted _ p hp
      have h2 : (p.1, p.2.1) ∈ cs := (sortValuesDesc_perm _ _).mem_iff.mp h1
      rcases List.mem_map.mp h2 with ⟨c, -, hc⟩
      have hc1 : p.1 = c := congrArg Prod.fst hc.symm
      have hc2 : p.2.1 = customerTotal t c := congrArg Prod.snd hc.symm
      rw [hc2, hc1]
    · rw [zipWith3_map_val sorted _ hzip]
      exact List.pairwise_map.mpr (sortValuesDesc_sorted Prod.snd cs)
    · rw [zipWith3_map_lab sorted _ hzip]
      simp only [specBandLabels, specBandCount, specBandSize, if_pos hz]
  · -- at least as many customers as segments
    set d := N / n.toNat with hd
    have hd1 : 1 ≤ d := by
      rw [hd]
      exact (Nat.one_le_div_iff (by omega)).mpr (by omega)
    have hsz : ((N : ℤ)).fdiv n = ((d : ℕ) : ℤ) := by
      rw [hfdiv, hncast, hd]
      exact (Int.ofNat_ediv N n.toNat).symm
    rw [hsz]
    have hdne : ¬ (((d : ℕ) : ℤ) = 0) := by omega
    rw [if_neg hdne, if_neg hdne]
    have hnd : n.toNat * d ≤ N := by
      rw [hd, mul_comm]
      exact Nat.div_mul_le_self N n.toNat
    rw [segments_int_eq n ((d : ℕ) : ℤ) N (by omega)]
    simp only [Int.toNat_natCast]
    have hkn : 1 ≤ n.toNat := by omega
    have hle_nat : (n.toNat - 1) * d ≤ N :=
      le_trans (Nat.mul_le_mul_right d (by omega)) hnd
    have hL := segments_nat_length n.toNat d N hkn hle_nat
      (fun i => "Segment " ++ toString (i + 1))
    rw [if_neg (show ¬ _ ≠ N by rw [hL]; exact not_not_intro rfl)]
    have hzip : sorted.length = ((List.range n.toNat).flatMap (fun i =>
        List.replicate (if i + 1 < n.toNat then d else N - (n.toNat - 1) * d)
          ("Segment " ++ toString (i + 1)))).length := by rw [hL, hlen]
    refine ⟨_, rfl, ?_, ?_, ?_, ?_, ?_⟩
    · rw [List.length_zipWith, hlen, hL, min_self]
    · rw [zipWith3_map_fst sorted _ hzip]
      refine ((sortValuesDesc_perm _ _).map Prod.fst).trans ?_
      have h2 : cs.map Prod.fst = customerKeys t := by
        rw [hcs, List.map_map]
        exact (List.map_congr_left (fun a _ => rfl)).trans (List.map_id _)
      rw [h2]
      exact sortByB_perm _ _
    · intro p hp
      have h1 : (p.1, p.2.1) ∈ sorted := zipWith3_mem sorted _ p hp
      have h2 : (p.1, p.2.1) ∈ cs := (sortValuesDesc_perm _ _).mem_iff.mp h1
      rcases List.mem_map.mp h2 with ⟨c, -, hc⟩
      have hc1 : p.1 = c := congrArg Prod.fst hc.symm
      have hc2 : p.2.1 = customerTotal t c := congrArg Prod.snd hc.symm
      rw [hc2, hc1]
    · rw [zipWith3_map_val sorted _ hzip]
      exact List.pairwise_map.mpr (sortValuesDesc_sorted Prod.snd cs)
    · rw [zipWith3_map_lab sorted _ hzip]
      simp only [specBandLabels, specBandCount, specBandSize, if_neg hz, hd]

/-- Witness for C4 at a concrete table and `nSegments = 2`. -/
theorem c4_witness :
    exTie.rows ≠ [] ∧ (1 : ℤ) ≤ 2 ∧
    (∃ sr, segment_customers exTie 2 = (exTie, .ok sr) ∧
      sr.length = (uniqueKeys (exTie.rows.map Row.customer_id)).length ∧
      (sr.map (fun x => x.1)).Perm (uniqueKeys (exTie.rows.map Row.customer_id)) ∧
      (∀ p ∈ sr, p.2.1 = customerTotal exTie p.1) ∧
      (sr.map (fun x => x.2.1)).Pairwise (fun a b => b ≤ a) ∧
      sr.map (fun x => x.2.2) =
        specBandLabels (uniqueKeys (exTie.rows.map Row.customer_id)).length 2) :=
  ⟨by decide, by decide, c4_segments exTie (by decide) 2 (by decide)⟩

end DataAnalyzer
